import Mathlib

/-!
Shallow embedding of the resource-metrics core (`api/interface.go`).

Modelling conventions:
* A k8s `resource.Quantity` is modelled as an `Int` counting milli-units
  (the precision the code itself works at via `MilliValue`/`SetMilli`).
* A Go `core.ResourceList` (`map[ResourceName]Quantity`) is modelled as
  `Option (List (String × Int))`: `none` is the Go `nil` map, `some l` a
  non-nil map given by an association list.  Reads treat `nil` as empty,
  exactly as the k8s accessors `Cpu()/Memory()/Storage()` do; writing to a
  `nil` map is a Go runtime panic and is modelled explicitly.
* Go panics are modelled by the `GoResult.panicked` outcome; `error`
  returns by `GoResult.err` with a diagnostic string (message text is
  simplified but presence/absence of an error is faithful).
-/

/-- Resource name of CPU (`core.ResourceCPU`). -/
def cpuK : String := "cpu"

/-- Resource name of memory (`core.ResourceMemory`). -/
def memoryK : String := "memory"

/-- Resource name of storage (`core.ResourceStorage`). -/
def storageK : String := "storage"

/-- Semi-structured document value, as held by a Go
`map[string]interface{}` obtained from JSON/YAML: strings, (integer)
numbers, booleans, null, nested maps and arrays. -/
inductive Value where
  | str : String → Value
  | num : Int → Value
  | bool : Bool → Value
  | null : Value
  | obj : List (String × Value) → Value
  | arr : List Value → Value

/-- A Go `map[string]interface{}` document. -/
abbrev Obj := List (String × Value)

/-- Models k8s `resource.ParseQuantity` (restricted to the nonnegative
decimal integer forms used by this repository's documents): a bare number
of units, a decimal string, a milli-suffixed string, or binary-suffixed
strings.  Returns the value in milli-units; `none` models a parse error. -/
def parseQuantityString (s : String) : Option Int :=
  if s.endsWith "m" then
    (s.dropRight 1).toNat? |>.map (fun n => (n : Int))
  else if s.endsWith "Ki" then
    (s.dropRight 2).toNat? |>.map (fun n => (n : Int) * 1024 * 1000)
  else if s.endsWith "Mi" then
    (s.dropRight 2).toNat? |>.map (fun n => (n : Int) * 1048576 * 1000)
  else if s.endsWith "Gi" then
    (s.dropRight 2).toNat? |>.map (fun n => (n : Int) * 1073741824 * 1000)
  else
    s.toNat? |>.map (fun n => (n : Int) * 1000)

/-- Models decoding one unstructured value into a `resource.Quantity`
(via `Quantity.UnmarshalJSON`): numbers and well-formed strings parse,
JSON null yields the zero quantity, anything else is a decode error. -/
def parseQuantity : Value → Option Int
  | .num n => some (n * 1000)
  | .str s => parseQuantityString s
  | .null => some 0
  | _ => none

/-- Models Go `core.ResourceList`: `none` is the nil map. -/
abbrev RL := Option (List (String × Int))

/-- Read of a key from a (possibly nil) resource list, as a Go map read
returning presence. -/
def rlLookup (x : RL) (k : String) : Option Int :=
  (x.getD []).lookup k

/-- Value of a key in a resource list, absent meaning zero; this is what
the k8s accessor `ResourceList.Name` returns value-wise. -/
def rlGet (x : RL) (k : String) : Int :=
  (rlLookup x k).getD 0

/-- Models the accessor `x.Cpu()` (value in milli-units). -/
def rlCpu (x : RL) : Int := rlGet x cpuK

/-- Models the accessor `x.Memory()`. -/
def rlMemory (x : RL) : Int := rlGet x memoryK

/-- Models the accessor `x.Storage()`. -/
def rlStorage (x : RL) : Int := rlGet x storageK

/-- Conditional map insert used when building result lists: the source
inserts the computed quantity only when it is nonzero. -/
def condEntry (k : String) (v : Int) (rest : List (String × Int)) : List (String × Int) :=
  if v = 0 then rest else (k, v) :: rest

/-- Canonical result list produced by the arithmetic helpers: an empty map
into which cpu, memory and storage are inserted when nonzero. -/
def mkCanon (c m s : Int) : RL :=
  some (condEntry cpuK c (condEntry memoryK m (condEntry storageK s [])))

/-- Models `AddResourceList`: per resource kind the sum of the two inputs
(`Quantity.Add` is exact on milli-units), inserted when nonzero. -/
def AddResourceList (x y : RL) : RL :=
  mkCanon (rlCpu x + rlCpu y) (rlMemory x + rlMemory y) (rlStorage x + rlStorage y)

/-- Conditional insert used by `MulResourceList`: the zero test is on the
input quantity `q`, while the stored value is `q * multiplier`
(`n.SetMilli(q.MilliValue() * multiplier)`). -/
def mulEntry (k : String) (q multiplier : Int) (rest : List (String × Int)) : List (String × Int) :=
  if q = 0 then rest else (k, q * multiplier) :: rest

/-- Models `MulResourceList`: for each of cpu/memory/storage present and
nonzero in `x`, store its milli-value times the multiplier. -/
def MulResourceList (x : RL) (multiplier : Int) : RL :=
  some (mulEntry cpuK (rlCpu x) multiplier
    (mulEntry memoryK (rlMemory x) multiplier
      (mulEntry storageK (rlStorage x) multiplier [])))

/-- Models `MaxResourceList`: per kind, `x`'s value when `x.Cmp(y) >= 0`,
else `y`'s; the chosen value is inserted when nonzero. -/
def MaxResourceList (x y : RL) : RL :=
  mkCanon (if rlCpu y ≤ rlCpu x then rlCpu x else rlCpu y)
    (if rlMemory y ≤ rlMemory x then rlMemory x else rlMemory y)
    (if rlStorage y ≤ rlStorage x then rlStorage x else rlStorage y)

/-- Models `api.PodRole` (a string type declared in a file of the api
package not included under src). -/
abbrev PodRole := String

/-- Modelled from the spec: the reserved init role constant
(`api.InitPodRole`, declared outside the shown files). -/
def InitPodRole : PodRole := "init"

/-- Modelled from the spec: the default role constant. -/
def DefaultPodRole : PodRole := "default"

/-- Modelled from the spec: the exporter sidecar role constant. -/
def ExporterPodRole : PodRole := "exporter"

/-- Models `api.ReplicaList` (`map[PodRole]int64`). -/
abbrev ReplicaList := List (PodRole × Int)

/-- Models `map[PodRole]core.ResourceList`. -/
abbrev RoleResourceMap := List (PodRole × RL)

/-- Go map read of a replica count: an absent role reads as zero. -/
def getRep (rl : ReplicaList) (role : PodRole) : Int :=
  (rl.lookup role).getD 0

/-- Go map read of a role's resource list: an absent role reads as the nil
resource list. -/
def findRR (rr : RoleResourceMap) (role : PodRole) : RL :=
  (rr.lookup role).getD none

/-- Models `ResourceListForRoles`: one pass over the roles accumulating
cpu, memory and storage sums (absent roles contribute a nil list, hence
zero), then conditional insert of each nonzero sum. -/
def ResourceListForRoles (rr : RoleResourceMap) (roles : List PodRole) : RL :=
  let t := roles.foldl
    (fun (t : Int × Int × Int) role =>
      let rl := findRR rr role
      (t.1 + rlCpu rl, t.2.1 + rlMemory rl, t.2.2 + rlStorage rl))
    (0, 0, 0)
  mkCanon t.1 t.2.1 t.2.2

/-- Outcome of `unstructured.NestedFieldNoCopy`. -/
inductive Nested where
  | found : Value → Nested
  | absent : Nested
  | errN : String → Nested

/-- Traversal loop of `unstructured.NestedFieldNoCopy`: a nil value with
fields remaining is "not found"; a non-map intermediate is an accessor
error; a missing key is "not found"; the leaf value is returned as-is. -/
def nestedGo : Value → List String → Nested
  | v, [] => .found v
  | .null, _ :: _ => .absent
  | .obj m, f :: rest =>
      match m.lookup f with
      | none => .absent
      | some v => nestedGo v rest
  | _, _ :: _ => .errN "accessor error: expected map"

/-- Models `unstructured.NestedFieldNoCopy(obj, fields...)`. -/
def nestedFieldNoCopy (obj : Obj) (fields : List String) : Nested :=
  nestedGo (.obj obj) fields

/-- Outcome of a Go function returning `(T, error)`: a result, a non-nil
error, or a runtime panic. -/
inductive GoResult (α : Type) where
  | ok : α → GoResult α
  | err : String → GoResult α
  | panicked : GoResult α

/-- Models `core.ResourceRequirements` restricted to the fields this code
reads (`Limits`, `Requests`). -/
structure ResourceRequirements where
  Limits : RL
  Requests : RL

/-- Models `api.ResourceLimits`. -/
def ResourceLimits (rr : ResourceRequirements) : RL := rr.Limits

/-- Models `api.ResourceRequests`. -/
def ResourceRequests (rr : ResourceRequirements) : RL := rr.Requests

/-- Models `api.Container` (a struct with one json field `resources`). -/
structure Container where
  Resources : ResourceRequirements

/-- Models `ofst.PodSpec` restricted to the `resources` field read by this
code. -/
structure PodSpec where
  Resources : ResourceRequirements

/-- Models `ofst.PodTemplateSpec` restricted to its `spec` field. -/
structure PodTemplateSpec where
  Spec : PodSpec

/-- Models `core.PersistentVolumeClaimSpec` restricted to its `resources`
field. -/
structure PVCSpec where
  Resources : ResourceRequirements

/-- Models `api.AppNode`: `replicas` (an optional int64 pointer),
`podTemplate` and `storage`. -/
structure AppNode where
  Replicas : Option Int
  PodTemplate : PodTemplateSpec
  Storage : PVCSpec

/-- Decoding of the entries of a quantity map (the value of `limits` or
`requests`): every entry must parse as a quantity. -/
def decodeQuantityEntries : List (String × Value) → Except String (List (String × Int))
  | [] => .ok []
  | (k, v) :: rest =>
      match parseQuantity v with
      | some q => (decodeQuantityEntries rest).map (fun l => (k, q) :: l)
      | none => .error ("cannot decode quantity of " ++ k)

/-- Decoding of a `limits`/`requests` field value into a resource list
(`runtime.DefaultUnstructuredConverter` semantics): null yields the nil
map, a map yields a non-nil map of parsed quantities, anything else is a
decode error. -/
def decodeRLField : Value → Except String RL
  | .null => .ok none
  | .obj entries => (decodeQuantityEntries entries).map (fun l => some l)
  | _ => .error "cannot decode resource list"

/-- Decoding of an optional map field whose absence or null value leaves
the nil map. -/
def decodeRLOpt (m : List (String × Value)) (key : String) : Except String RL :=
  match m.lookup key with
  | none => .ok none
  | some v => decodeRLField v

/-- Decoding of a value into `core.ResourceRequirements`: null yields the
zero struct, a map is decoded field-wise, anything else is a decode
error. -/
def decodeResourceRequirements : Value → Except String ResourceRequirements
  | .null => .ok ⟨none, none⟩
  | .obj m =>
      match decodeRLOpt m "limits" with
      | .error e => .error e
      | .ok l =>
          match decodeRLOpt m "requests" with
          | .error e => .error e
          | .ok r => .ok ⟨l, r⟩
  | _ => .error "cannot decode resource requirements"

/-- Decoding of the optional `resources` key of a map into
`core.ResourceRequirements`. -/
def decodeResourcesOpt (m : List (String × Value)) : Except String ResourceRequirements :=
  match m.lookup "resources" with
  | none => .ok ⟨none, none⟩
  | some v => decodeResourceRequirements v

/-- Models `FromUnstructured` into `api.Container`. -/
def decodeContainer (m : List (String × Value)) : Except String Container :=
  (decodeResourcesOpt m).map (fun rr => ⟨rr⟩)

/-- Models `FromUnstructured` into `ofst.PodTemplateSpec` (fields other
than `spec.resources` are not read by this code and are ignored). -/
def decodePodTemplate : Value → Except String PodTemplateSpec
  | .null => .ok ⟨⟨⟨none, none⟩⟩⟩
  | .obj m =>
      match m.lookup "spec" with
      | none => .ok ⟨⟨⟨none, none⟩⟩⟩
      | some .null => .ok ⟨⟨⟨none, none⟩⟩⟩
      | some (.obj ms) => (decodeResourcesOpt ms).map (fun rr => ⟨⟨rr⟩⟩)
      | some _ => .error "cannot decode pod template spec"
  | _ => .error "cannot decode pod template"

/-- Models `FromUnstructured` into `core.PersistentVolumeClaimSpec`
(fields other than `resources` are not read by this code and are
ignored). -/
def decodePVCSpec : Value → Except String PVCSpec
  | .null => .ok ⟨⟨none, none⟩⟩
  | .obj m => (decodeResourcesOpt m).map (fun rr => ⟨rr⟩)
  | _ => .error "cannot decode storage"

/-- Decoding of the optional `replicas` key into `*int64`: absent or null
yields the nil pointer, an integer yields a value, anything else is a
decode error. -/
def decodeReplicasField (m : List (String × Value)) : Except String (Option Int) :=
  match m.lookup "replicas" with
  | none => .ok none
  | some .null => .ok none
  | some (.num n) => .ok (some n)
  | some _ => .error "cannot decode replicas"

/-- Decoding of the optional `podTemplate` key: absence leaves the zero
struct. -/
def decodePodTemplateOpt (m : List (String × Value)) : Except String PodTemplateSpec :=
  match m.lookup "podTemplate" with
  | none => .ok ⟨⟨⟨none, none⟩⟩⟩
  | some v => decodePodTemplate v

/-- Decoding of the optional `storage` key: absence leaves the zero
struct. -/
def decodeStorageOpt (m : List (String × Value)) : Except String PVCSpec :=
  match m.lookup "storage" with
  | none => .ok ⟨⟨none, none⟩⟩
  | some v => decodePVCSpec v

/-- Models `FromUnstructured` into `api.AppNode`. -/
def decodeAppNode (m : List (String × Value)) : Except String AppNode :=
  match decodeReplicasField m with
  | .error e => .error e
  | .ok reps =>
      match decodePodTemplateOpt m with
      | .error e => .error e
      | .ok pt =>
          match decodeStorageOpt m with
          | .error e => .error e
          | .ok st => .ok ⟨reps, pt, st⟩

/-- Go map assignment `l[k] = v`: replace the existing entry or append. -/
def setKey : List (String × Int) → String → Int → List (String × Int)
  | [], k, v => [(k, v)]
  | (k2, v2) :: rest, k, v =>
      if k2 = k then (k, v) :: rest else (k2, v2) :: setKey rest k v

/-- Models `api.ContainerResources`: absent path returns the nil list with
no error; a path error propagates; a present non-map value hits the
unchecked type assertion `val.(map[string]interface{})` and panics; a
present map is decoded and the selector applied. -/
def ContainerResources (obj : Obj) (fn : ResourceRequirements → RL)
    (fields : List String) : GoResult RL :=
  match nestedFieldNoCopy obj fields with
  | .absent => .ok none
  | .errN e => .err e
  | .found (.obj m) =>
      match decodeContainer m with
      | .error e => .err ("failed to parse container: " ++ e)
      | .ok c => .ok (fn c.Resources)
  | .found _ => .panicked

/-- Models `api.StorageResources`: same shape as `ContainerResources`,
decoding a `PersistentVolumeClaimSpec`, with the same unchecked type
assertion. -/
def StorageResources (obj : Obj) (fn : ResourceRequirements → RL)
    (fields : List String) : GoResult RL :=
  match nestedFieldNoCopy obj fields with
  | .absent => .ok none
  | .errN e => .err e
  | .found (.obj m) =>
      match decodePVCSpec (.obj m) with
      | .error e => .err ("failed to parse storage: " ++ e)
      | .ok s => .ok (fn s.Resources)
  | .found _ => .panicked

/-- Models `api.AppNodeResources`: absent path returns `(nil, 0, nil)`; a
present non-map value panics on the unchecked type assertion; after
decoding, `replicas` defaults to 1 when nil, and the storage quantity of
the storage claim is assigned into the pod list — a Go map assignment
which panics when that list is the nil map. -/
def AppNodeResources (obj : Obj) (fn : ResourceRequirements → RL)
    (fields : List String) : GoResult (RL × Int) :=
  match nestedFieldNoCopy obj fields with
  | .absent => .ok (none, 0)
  | .errN e => .err e
  | .found (.obj m) =>
      match decodeAppNode m with
      | .error e => .err ("failed to parse node: " ++ e)
      | .ok node =>
          let replicas := node.Replicas.getD 1
          let rr := fn node.PodTemplate.Spec.Resources
          let sr := fn node.Storage.Resources
          match rr with
          | none => .panicked
          | some entries => .ok (some (setKey entries storageK (rlStorage sr)), replicas)
  | .found _ => .panicked

/-- Diagnostic message of the checked array assertion in
`AggregateContainerResources`. -/
def aggMismatchMsg (fields : List String) : String :=
  String.intercalate "." fields ++ " accessor error: expected an array"

/-- Loop body of `AggregateContainerResources`: array entries that are not
maps are skipped with `continue`; a map entry that fails to decode aborts
with an error; otherwise the selected list is aggregated. -/
def aggLoop (fn : ResourceRequirements → RL) (aggregate : RL → RL → RL) :
    List Value → RL → GoResult RL
  | [], acc => .ok acc
  | .obj m :: rest, acc =>
      match decodeContainer m with
      | .error e => .err ("failed to parse container: " ++ e)
      | .ok c => aggLoop fn aggregate rest (aggregate acc (fn c.Resources))
  | _ :: rest, acc => aggLoop fn aggregate rest acc

/-- Models `api.AggregateContainerResources`: absent path returns the nil
list with no error; a present non-array value fails the checked type
assertion with an accessor error; an array is folded with `aggregate`
starting from the empty (non-nil) list. -/
def AggregateContainerResources (obj : Obj) (fn : ResourceRequirements → RL)
    (aggregate : RL → RL → RL) (fields : List String) : GoResult RL :=
  match nestedFieldNoCopy obj fields with
  | .absent => .ok none
  | .errN e => .err e
  | .found (.arr items) => aggLoop fn aggregate items (some [])
  | .found _ => .err (aggMismatchMsg fields)

/-- Models `api.ResourceCalculatorFuncs`, the default adapter
configuration. -/
structure ResourceCalculatorFuncs where
  AppRoles : List PodRole
  RuntimeRoles : List PodRole
  RoleReplicasFn : Obj → Except String ReplicaList
  ModeFn : Option (Obj → Except String String)
  RoleResourceLimitsFn : Obj → Except String RoleResourceMap
  RoleResourceRequestsFn : Obj → Except String RoleResourceMap

/-- Models the adapter method `RoleReplicas`. -/
def ResourceCalculatorFuncs.RoleReplicas (c : ResourceCalculatorFuncs) (obj : Obj) :
    Except String ReplicaList :=
  c.RoleReplicasFn obj

/-- Models the adapter method `Replicas`: the sum of the replica counts of
the configured app roles. -/
def ResourceCalculatorFuncs.Replicas (c : ResourceCalculatorFuncs) (obj : Obj) :
    Except String Int :=
  match c.RoleReplicas obj with
  | .error e => .error e
  | .ok replicas => .ok (c.AppRoles.foldl (fun cnt role => cnt + getRep replicas role) 0)

/-- Models the adapter method `RoleResourceLimits`. -/
def ResourceCalculatorFuncs.RoleResourceLimits (c : ResourceCalculatorFuncs) (obj : Obj) :
    Except String RoleResourceMap :=
  c.RoleResourceLimitsFn obj

/-- Models the adapter method `RoleResourceRequests`. -/
def ResourceCalculatorFuncs.RoleResourceRequests (c : ResourceCalculatorFuncs) (obj : Obj) :
    Except String RoleResourceMap :=
  c.RoleResourceRequestsFn obj

/-- Models the adapter method `TotalResourceLimits`. -/
def ResourceCalculatorFuncs.TotalResourceLimits (c : ResourceCalculatorFuncs) (obj : Obj) :
    Except String RL :=
  match c.RoleResourceLimits obj with
  | .error e => .error e
  | .ok rr => .ok (MaxResourceList
      (ResourceListForRoles rr c.RuntimeRoles)
      (ResourceListForRoles rr [InitPodRole]))

/-- Models the adapter method `TotalResourceRequests`. -/
def ResourceCalculatorFuncs.TotalResourceRequests (c : ResourceCalculatorFuncs) (obj : Obj) :
    Except String RL :=
  match c.RoleResourceRequests obj with
  | .error e => .error e
  | .ok rr => .ok (MaxResourceList
      (ResourceListForRoles rr c.RuntimeRoles)
      (ResourceListForRoles rr [InitPodRole]))

/-- Models the adapter method `AppResourceLimits`. -/
def ResourceCalculatorFuncs.AppResourceLimits (c : ResourceCalculatorFuncs) (obj : Obj) :
    Except String RL :=
  match c.RoleResourceLimits obj with
  | .error e => .error e
  | .ok rr => .ok (ResourceListForRoles rr c.AppRoles)

/-- Models the adapter method `AppResourceRequests`. -/
def ResourceCalculatorFuncs.AppResourceRequests (c : ResourceCalculatorFuncs) (obj : Obj) :
    Except String RL :=
  match c.RoleResourceRequests obj with
  | .error e => .error e
  | .ok rr => .ok (ResourceListForRoles rr c.AppRoles)

/-! Basic lookup facts about association lists and the canonical result
lists built by the arithmetic helpers. -/

/-- Lookup of the key just inserted at the head. -/
theorem lookup_cons_self (a : String) (v : Int) (l : List (String × Int)) :
    List.lookup a ((a, v) :: l) = some v := by
  simp [List.lookup]

/-- Lookup skips a head entry with a different key. -/
theorem lookup_cons_ne {a k : String} (v : Int) (l : List (String × Int))
    (h : a ≠ k) : List.lookup a ((k, v) :: l) = List.lookup a l := by
  have hb : (a == k) = false := beq_eq_false_iff_ne.mpr h
  simp [List.lookup, hb]

/-- Lookup of a key other than the conditionally inserted one. -/
theorem lookup_condEntry_ne {a k : String} (v : Int) (rest : List (String × Int))
    (h : a ≠ k) : List.lookup a (condEntry k v rest) = List.lookup a rest := by
  unfold condEntry
  split
  · rfl
  · exact lookup_cons_ne v rest h

/-- Lookup of the conditionally inserted key. -/
theorem lookup_condEntry_self (a : String) (v : Int) (rest : List (String × Int)) :
    List.lookup a (condEntry a v rest) =
      if v = 0 then List.lookup a rest else some v := by
  unfold condEntry
  split
  · simp [*]
  · simp [lookup_cons_self, *]

/-- Lookup of a key other than the one inserted by `mulEntry`. -/
theorem lookup_mulEntry_ne {a k : String} (q mult : Int) (rest : List (String × Int))
    (h : a ≠ k) : List.lookup a (mulEntry k q mult rest) = List.lookup a rest := by
  unfold mulEntry
  split
  · rfl
  · exact lookup_cons_ne _ rest h

/-- Lookup of the key inserted by `mulEntry`. -/
theorem lookup_mulEntry_self (a : String) (q mult : Int) (rest : List (String × Int)) :
    List.lookup a (mulEntry a q mult rest) =
      if q = 0 then List.lookup a rest else some (q * mult) := by
  unfold mulEntry
  split
  · simp [*]
  · simp [lookup_cons_self, *]

theorem cpuK_ne_memoryK : cpuK ≠ memoryK := by decide
theorem cpuK_ne_storageK : cpuK ≠ storageK := by decide
theorem memoryK_ne_cpuK : memoryK ≠ cpuK := by decide
theorem memoryK_ne_storageK : memoryK ≠ storageK := by decide
theorem storageK_ne_cpuK : storageK ≠ cpuK := by decide
theorem storageK_ne_memoryK : storageK ≠ memoryK := by decide

/-- CPU entry of a canonical result list. -/
theorem rlLookup_mkCanon_cpu (c m s : Int) :
    rlLookup (mkCanon c m s) cpuK = if c = 0 then none else some c := by
  unfold mkCanon rlLookup
  simp only [Option.getD_some]
  rw [lookup_condEntry_self]
  split
  · rw [lookup_condEntry_ne _ _ cpuK_ne_memoryK,
      lookup_condEntry_ne _ _ cpuK_ne_storageK]
    rfl
  · rfl

/-- Memory entry of a canonical result list. -/
theorem rlLookup_mkCanon_memory (c m s : Int) :
    rlLookup (mkCanon c m s) memoryK = if m = 0 then none else some m := by
  unfold mkCanon rlLookup
  simp only [Option.getD_some]
  rw [lookup_condEntry_ne _ _ memoryK_ne_cpuK, lookup_condEntry_self]
  split
  · rw [lookup_condEntry_ne _ _ memoryK_ne_storageK]
    rfl
  · rfl

/-- Storage entry of a canonical result list. -/
theorem rlLookup_mkCanon_storage (c m s : Int) :
    rlLookup (mkCanon c m s) storageK = if s = 0 then none else some s := by
  unfold mkCanon rlLookup
  simp only [Option.getD_some]
  rw [lookup_condEntry_ne _ _ storageK_ne_cpuK,
    lookup_condEntry_ne _ _ storageK_ne_memoryK, lookup_condEntry_self]
  split
  · rfl
  · rfl

/-- A canonical result list holds no key beyond cpu, memory and storage. -/
theorem rlLookup_mkCanon_other (c m s : Int) {k : String}
    (h1 : k ≠ cpuK) (h2 : k ≠ memoryK) (h3 : k ≠ storageK) :
    rlLookup (mkCanon c m s) k = none := by
  unfold mkCanon rlLookup
  simp only [Option.getD_some]
  rw [lookup_condEntry_ne _ _ h1, lookup_condEntry_ne _ _ h2,
    lookup_condEntry_ne _ _ h3]
  rfl

/-- Reading cpu back from a canonical result list. -/
theorem rlCpu_mkCanon (c m s : Int) : rlCpu (mkCanon c m s) = c := by
  unfold rlCpu rlGet
  rw [rlLookup_mkCanon_cpu]
  split
  · simp [*]
  · rfl

/-- Reading memory back from a canonical result list. -/
theorem rlMemory_mkCanon (c m s : Int) : rlMemory (mkCanon c m s) = m := by
  unfold rlMemory rlGet
  rw [rlLookup_mkCanon_memory]
  split
  · simp [*]
  · rfl

/-- Reading storage back from a canonical result list. -/
theorem rlStorage_mkCanon (c m s : Int) : rlStorage (mkCanon c m s) = s := by
  unfold rlStorage rlGet
  rw [rlLookup_mkCanon_storage]
  split
  · simp [*]
  · rfl

/-- The empty canonical list is the empty map. -/
theorem mkCanon_zero : mkCanon 0 0 0 = some [] := by
  simp [mkCanon, condEntry]

/-! Spec-side definitions, written from the specification's words, for the
refinement claims about the default adapter's aggregates. -/

/-- Follows the spec's words ("add(x, y): per resource kind, numeric sum;
omit a kind from the result if the sum is zero"). -/
def specAdd (x y : RL) : RL :=
  mkCanon (rlCpu x + rlCpu y) (rlMemory x + rlMemory y) (rlStorage x + rlStorage y)

/-- Follows the spec's words ("max(x, y): per resource kind, the greater
of the two values; a kind present in only one input is compared against an
implicit zero for the other; omit zero results"). -/
def specElementwiseMax (x y : RL) : RL :=
  mkCanon (max (rlCpu x) (rlCpu y)) (max (rlMemory x) (rlMemory y))
    (max (rlStorage x) (rlStorage y))

/-- Follows the spec's words ("sumForRoles(roleResourceList, roles): add
the Resource List of each named role; roles not present in the map
contribute zero"). -/
def specSumForRoles (rr : RoleResourceMap) (roles : List PodRole) : RL :=
  roles.foldl (fun acc role => specAdd acc (findRR rr role)) (some [])

/-- Choosing the side whose quantity compares greater-or-equal is the
numeric maximum. -/
theorem if_le_eq_max (a b : Int) : (if b ≤ a then a else b) = max a b := by
  split <;> omega

/-- The code's `MaxResourceList` is the spec's element-wise maximum. -/
theorem MaxResourceList_eq_spec (x y : RL) :
    MaxResourceList x y = specElementwiseMax x y := by
  unfold MaxResourceList specElementwiseMax
  rw [if_le_eq_max, if_le_eq_max, if_le_eq_max]

/-- Triple of running cpu/memory/storage sums accumulated by
`ResourceListForRoles`. -/
def sumTriple (rr : RoleResourceMap) (roles : List PodRole) (init : Int × Int × Int) :
    Int × Int × Int :=
  roles.foldl
    (fun (t : Int × Int × Int) role =>
      let rl := findRR rr role
      (t.1 + rlCpu rl, t.2.1 + rlMemory rl, t.2.2 + rlStorage rl))
    init

/-- Unfolding of `ResourceListForRoles` through `sumTriple`. -/
theorem ResourceListForRoles_eq_sumTriple (rr : RoleResourceMap) (roles : List PodRole) :
    ResourceListForRoles rr roles =
      mkCanon (sumTriple rr roles (0, 0, 0)).1 (sumTriple rr roles (0, 0, 0)).2.1
        (sumTriple rr roles (0, 0, 0)).2.2 := rfl

/-- Adding a list onto a canonical accumulator adds component-wise. -/
theorem specAdd_mkCanon (c m s : Int) (y : RL) :
    specAdd (mkCanon c m s) y =
      mkCanon (c + rlCpu y) (m + rlMemory y) (s + rlStorage y) := by
  unfold specAdd
  rw [rlCpu_mkCanon, rlMemory_mkCanon, rlStorage_mkCanon]

/-- Folding the spec's add over roles from a canonical accumulator yields
the canonical list of the running sums. -/
theorem fold_specAdd_eq (rr : RoleResourceMap) :
    ∀ (roles : List PodRole) (c m s : Int),
      List.foldl (fun acc role => specAdd acc (findRR rr role)) (mkCanon c m s) roles =
        mkCanon (sumTriple rr roles (c, m, s)).1 (sumTriple rr roles (c, m, s)).2.1
          (sumTriple rr roles (c, m, s)).2.2 := by
  intro roles
  induction roles with
  | nil => intro c m s; rfl
  | cons r rs ih =>
      intro c m s
      rw [List.foldl_cons, specAdd_mkCanon]
      exact ih (c + rlCpu (findRR rr r)) (m + rlMemory (findRR rr r))
        (s + rlStorage (findRR rr r))

/-- The code's `ResourceListForRoles` computes the spec's
`sumForRoles`. -/
theorem ResourceListForRoles_eq_spec (rr : RoleResourceMap) (roles : List PodRole) :
    ResourceListForRoles rr roles = specSumForRoles rr roles := by
  unfold specSumForRoles
  rw [← mkCanon_zero, fold_specAdd_eq, ResourceListForRoles_eq_sumTriple]

/-! Membership facts used for the zero-omission claims. -/

/-- A successful association-list lookup is a membership. -/
theorem lookup_mem :
    ∀ (l : List (String × Int)) (k : String) (v : Int),
      l.lookup k = some v → (k, v) ∈ l := by
  intro l
  induction l with
  | nil => intro k v h; simp [List.lookup] at h
  | cons p rest ih =>
      intro k v h
      by_cases hk : k = p.1
      · have hb : (k == p.1) = true := beq_iff_eq.mpr hk
        simp [List.lookup, hb] at h
        subst hk
        simp [← h]
      · have hb : (k == p.1) = false := beq_eq_false_iff_ne.mpr hk
        simp [List.lookup, hb] at h
        exact List.mem_cons_of_mem _ (ih k v h)

/-- Members contributed by a conditional insert. -/
theorem mem_condEntry {p : String × Int} {k : String} {v : Int}
    {rest : List (String × Int)} (h : p ∈ condEntry k v rest) :
    (p = (k, v) ∧ v ≠ 0) ∨ p ∈ rest := by
  unfold condEntry at h
  split at h
  · exact Or.inr h
  · rcases List.mem_cons.mp h with h2 | h2
    · exact Or.inl ⟨h2, by assumption⟩
    · exact Or.inr h2

/-- Members contributed by a `mulEntry` insert. -/
theorem mem_mulEntry {p : String × Int} {k : String} {q mult : Int}
    {rest : List (String × Int)} (h : p ∈ mulEntry k q mult rest) :
    (p = (k, q * mult) ∧ q ≠ 0) ∨ p ∈ rest := by
  unfold mulEntry at h
  split at h
  · exact Or.inr h
  · rcases List.mem_cons.mp h with h2 | h2
    · exact Or.inl ⟨h2, by assumption⟩
    · exact Or.inr h2

/-- Every entry of a canonical result list has a nonzero value. -/
theorem mkCanon_value_ne_zero {c m s : Int} {p : String × Int}
    (h : p ∈ (mkCanon c m s).getD []) : p.2 ≠ 0 := by
  unfold mkCanon at h
  simp only [Option.getD_some] at h
  rcases mem_condEntry h with ⟨he, hv⟩ | h
  · rw [he]; exact hv
  · rcases mem_condEntry h with ⟨he, hv⟩ | h
    · rw [he]; exact hv
    · rcases mem_condEntry h with ⟨he, hv⟩ | h
      · rw [he]; exact hv
      · simp at h

/-- A canonical result list never maps a key to an explicit zero. -/
theorem mkCanon_lookup_ne_some_zero (c m s : Int) (k : String) :
    rlLookup (mkCanon c m s) k ≠ some 0 := by
  intro h
  unfold rlLookup at h
  exact mkCanon_value_ne_zero (lookup_mem _ _ _ h) rfl

/-- With a nonzero multiplier, every entry of a `MulResourceList` result
has a nonzero value. -/
theorem mul_value_ne_zero {x : RL} {mult : Int} (hmult : mult ≠ 0)
    {p : String × Int} (h : p ∈ (MulResourceList x mult).getD []) : p.2 ≠ 0 := by
  unfold MulResourceList at h
  simp only [Option.getD_some] at h
  rcases mem_mulEntry h with ⟨he, hv⟩ | h
  · rw [he]; exact mul_ne_zero hv hmult
  · rcases mem_mulEntry h with ⟨he, hv⟩ | h
    · rw [he]; exact mul_ne_zero hv hmult
    · rcases mem_mulEntry h with ⟨he, hv⟩ | h
      · rw [he]; exact mul_ne_zero hv hmult
      · simp at h

/-- Go map assignment makes the assigned key present with the assigned
value. -/
theorem lookup_setKey_self :
    ∀ (l : List (String × Int)) (k : String) (v : Int),
      List.lookup k (setKey l k v) = some v := by
  intro l
  induction l with
  | nil => intro k v; exact lookup_cons_self k v []
  | cons p rest ih =>
      intro k v
      unfold setKey
      split
      · exact lookup_cons_self k v rest
      · rw [lookup_cons_ne _ _ (by intro he; simp_all)]
        exact ih k v

/-! Further helper lemmas for the claims. -/

/-- Resource lists over the spec's closed kind set: every key is cpu,
memory or storage. -/
def closedKinds (x : RL) : Prop :=
  ∀ p ∈ x.getD [], p.1 = cpuK ∨ p.1 = memoryK ∨ p.1 = storageK

/-- On the closed kind set, every other key is absent. -/
theorem closedKinds_lookup_none {x : RL} (hx : closedKinds x) {k : String}
    (h1 : k ≠ cpuK) (h2 : k ≠ memoryK) (h3 : k ≠ storageK) :
    rlLookup x k = none := by
  unfold rlLookup
  cases hl : List.lookup k (x.getD []) with
  | none => rfl
  | some v =>
      rcases hx (k, v) (lookup_mem _ _ _ hl) with e | e | e
      · exact absurd e h1
      · exact absurd e h2
      · exact absurd e h3

/-- CPU entry of a `MulResourceList` result. -/
theorem rlLookup_mul_cpu (x : RL) (mult : Int) :
    rlLookup (MulResourceList x mult) cpuK =
      if rlCpu x = 0 then none else some (rlCpu x * mult) := by
  unfold MulResourceList rlLookup
  simp only [Option.getD_some]
  rw [lookup_mulEntry_self]
  split
  · rw [lookup_mulEntry_ne _ _ _ cpuK_ne_memoryK,
      lookup_mulEntry_ne _ _ _ cpuK_ne_storageK]
    rfl
  · rfl

/-- Memory entry of a `MulResourceList` result. -/
theorem rlLookup_mul_memory (x : RL) (mult : Int) :
    rlLookup (MulResourceList x mult) memoryK =
      if rlMemory x = 0 then none else some (rlMemory x * mult) := by
  unfold MulResourceList rlLookup
  simp only [Option.getD_some]
  rw [lookup_mulEntry_ne _ _ _ memoryK_ne_cpuK, lookup_mulEntry_self]
  split
  · rw [lookup_mulEntry_ne _ _ _ memoryK_ne_storageK]
    rfl
  · rfl

/-- Storage entry of a `MulResourceList` result. -/
theorem rlLookup_mul_storage (x : RL) (mult : Int) :
    rlLookup (MulResourceList x mult) storageK =
      if rlStorage x = 0 then none else some (rlStorage x * mult) := by
  unfold MulResourceList rlLookup
  simp only [Option.getD_some]
  rw [lookup_mulEntry_ne _ _ _ storageK_ne_cpuK,
    lookup_mulEntry_ne _ _ _ storageK_ne_memoryK, lookup_mulEntry_self]
  split
  · rfl
  · rfl

/-- A `MulResourceList` result holds no key beyond cpu, memory and
storage. -/
theorem rlLookup_mul_other (x : RL) (mult : Int) {k : String}
    (h1 : k ≠ cpuK) (h2 : k ≠ memoryK) (h3 : k ≠ storageK) :
    rlLookup (MulResourceList x mult) k = none := by
  unfold MulResourceList rlLookup
  simp only [Option.getD_some]
  rw [lookup_mulEntry_ne _ _ _ h1, lookup_mulEntry_ne _ _ _ h2,
    lookup_mulEntry_ne _ _ _ h3]
  rfl

/-- A successfully decoded app node carries exactly the result of the
`replicas` field decode. -/
theorem decodeAppNode_replicas {m : List (String × Value)} {node : AppNode}
    (h : decodeAppNode m = .ok node) :
    decodeReplicasField m = .ok node.Replicas := by
  unfold decodeAppNode at h
  cases h1 : decodeReplicasField m with
  | error e => rw [h1] at h; exact Except.noConfusion h
  | ok reps =>
      rw [h1] at h
      cases h2 : decodePodTemplateOpt m with
      | error e => rw [h2] at h; exact Except.noConfusion h
      | ok pt =>
          rw [h2] at h
          cases h3 : decodeStorageOpt m with
          | error e => rw [h3] at h; exact Except.noConfusion h
          | ok st =>
              rw [h3] at h
              cases h
              rfl

/-- Anatomy of a successful `AppNodeResources` run on a present, decodable
sub-document: the pod list selected by `fn` was a non-nil map, the result
is that map with the claim's storage quantity assigned, and the replica
count is the decoded count defaulted to 1. -/
theorem appNodeResources_ok {obj : Obj} {fn : ResourceRequirements → RL}
    {fields : List String} {m : List (String × Value)} {node : AppNode}
    {rl : RL} {n : Int}
    (hm : nestedFieldNoCopy obj fields = .found (.obj m))
    (hdec : decodeAppNode m = .ok node)
    (hrun : AppNodeResources obj fn fields = .ok (rl, n)) :
    ∃ entries, fn node.PodTemplate.Spec.Resources = some entries ∧
      rl = some (setKey entries storageK (rlStorage (fn node.Storage.Resources))) ∧
      n = node.Replicas.getD 1 := by
  unfold AppNodeResources at hrun
  simp only [hm, hdec] at hrun
  cases hrr : fn node.PodTemplate.Spec.Resources with
  | none =>
      simp only [hrr] at hrun
      exact GoResult.noConfusion hrun
  | some entries =>
      simp only [hrr, GoResult.ok.injEq, Prod.mk.injEq] at hrun
      exact ⟨entries, rfl, hrun.1.symm, hrun.2.symm⟩

/-- Array entries that are Go maps. -/
def objShaped : Value → Option (List (String × Value))
  | .obj m => some m
  | _ => none

/-- The resource lists selected from the object-shaped, successfully
decoded entries of a container array (the spec's reading of the lenient
aggregation loop). -/
def decodedLists (fn : ResourceRequirements → RL) (items : List Value) : List RL :=
  (items.filterMap objShaped).filterMap
    (fun m => match decodeContainer m with
      | .ok c => some (fn c.Resources)
      | .error _ => none)

/-- When every object-shaped entry decodes, the aggregation loop succeeds
and folds the aggregate over exactly the selected lists. -/
theorem aggLoop_all_ok (fn : ResourceRequirements → RL) :
    ∀ (items : List Value) (acc : RL),
      (∀ m ∈ items.filterMap objShaped, ∃ c, decodeContainer m = .ok c) →
      aggLoop fn AddResourceList items acc =
        .ok (List.foldl AddResourceList acc (decodedLists fn items)) := by
  intro items
  induction items with
  | nil => intro acc hall; rfl
  | cons v rest ih =>
      intro acc hall
      cases v with
      | obj m =>
          obtain ⟨c, hc⟩ := hall m (List.mem_cons_self m _)
          have hdl : decodedLists fn (.obj m :: rest) =
              fn c.Resources :: decodedLists fn rest := by
            simp [decodedLists, List.filterMap_cons, objShaped, hc]
          have hall2 : ∀ m2 ∈ rest.filterMap objShaped, ∃ c2, decodeContainer m2 = .ok c2 :=
            fun m2 hm2 => hall m2 (List.mem_cons_of_mem m hm2)
          calc aggLoop fn AddResourceList (.obj m :: rest) acc
              = aggLoop fn AddResourceList rest (AddResourceList acc (fn c.Resources)) := by
                simp only [aggLoop, hc]
            _ = .ok (List.foldl AddResourceList (AddResourceList acc (fn c.Resources))
                  (decodedLists fn rest)) := ih _ hall2
            _ = .ok (List.foldl AddResourceList acc (decodedLists fn (.obj m :: rest))) := by
                rw [hdl, List.foldl_cons]
      | str s => exact ih acc hall
      | num n2 => exact ih acc hall
      | bool b => exact ih acc hall
      | null => exact ih acc hall
      | arr a => exact ih acc hall

/-- Folding replica addition over roles is the sum of the mapped
counts. -/
theorem foldl_add_getRep (replicas : ReplicaList) :
    ∀ (roles : List PodRole) (a : Int),
      roles.foldl (fun cnt role => cnt + getRep replicas role) a =
        a + (roles.map (fun role => getRep replicas role)).sum := by
  intro roles
  induction roles with
  | nil => intro a; simp
  | cons r rs ih =>
      intro a
      rw [List.foldl_cons, List.map_cons, List.sum_cons, ih]
      ring

/-! Claim theorems. -/

/-- C1 (code bug): the extraction functions do not always return a result
or an explicit error — on a document whose requested field path is present
but holds a non-map value, the unchecked type assertion
`val.(map[string]interface{})` panics instead of returning a decode
error; and `AppNodeResources` additionally panics by assigning into a nil
map whenever the selected pod-template resource list is absent, as on the
well-formed document where the sub-document is the empty map. -/
theorem extraction_panics_on_malformed_present_field :
    ContainerResources [("spec", .str "hello")] ResourceLimits ["spec"] = .panicked ∧
    StorageResources [("spec", .str "hello")] ResourceLimits ["spec"] = .panicked ∧
    AppNodeResources [("spec", .str "hello")] ResourceLimits ["spec"] = .panicked ∧
    AppNodeResources [("spec", .obj [])] ResourceLimits ["spec"] = .panicked :=
  ⟨rfl, rfl, rfl, rfl⟩

/-- C2: whenever the role resource map is produced without error, the
default adapter's `TotalResourceLimits` (resp. `TotalResourceRequests`)
is the spec's element-wise maximum of the spec's sum of that map over the
configured runtime roles and its sum over the single init role. -/
theorem totalResources_eq_max_runtime_init (c : ResourceCalculatorFuncs) (obj : Obj)
    (rr : RoleResourceMap) :
    (c.RoleResourceLimitsFn obj = .ok rr →
      c.TotalResourceLimits obj = .ok (specElementwiseMax
        (specSumForRoles rr c.RuntimeRoles) (specSumForRoles rr [InitPodRole]))) ∧
    (c.RoleResourceRequestsFn obj = .ok rr →
      c.TotalResourceRequests obj = .ok (specElementwiseMax
        (specSumForRoles rr c.RuntimeRoles) (specSumForRoles rr [InitPodRole]))) := by
  constructor
  · intro h
    simp only [ResourceCalculatorFuncs.TotalResourceLimits,
      ResourceCalculatorFuncs.RoleResourceLimits, h]
    rw [MaxResourceList_eq_spec, ResourceListForRoles_eq_spec, ResourceListForRoles_eq_spec]
  · intro h
    simp only [ResourceCalculatorFuncs.TotalResourceRequests,
      ResourceCalculatorFuncs.RoleResourceRequests, h]
    rw [MaxResourceList_eq_spec, ResourceListForRoles_eq_spec, ResourceListForRoles_eq_spec]

/-- Witness for C2 at a concrete adapter and role resource map. -/
theorem totalResources_eq_max_runtime_init_witness :
    ResourceCalculatorFuncs.TotalResourceLimits
      ⟨[DefaultPodRole], [DefaultPodRole, ExporterPodRole],
        fun _ => .ok [(DefaultPodRole, 2)], none,
        fun _ => .ok [(DefaultPodRole, some [(cpuK, 500)])],
        fun _ => .ok [(DefaultPodRole, some [(cpuK, 500)])]⟩ []
      = .ok (specElementwiseMax
          (specSumForRoles [(DefaultPodRole, some [(cpuK, 500)])]
            [DefaultPodRole, ExporterPodRole])
          (specSumForRoles [(DefaultPodRole, some [(cpuK, 500)])] [InitPodRole])) ∧
    ResourceCalculatorFuncs.TotalResourceRequests
      ⟨[DefaultPodRole], [DefaultPodRole, ExporterPodRole],
        fun _ => .ok [(DefaultPodRole, 2)], none,
        fun _ => .ok [(DefaultPodRole, some [(cpuK, 500)])],
        fun _ => .ok [(DefaultPodRole, some [(cpuK, 500)])]⟩ []
      = .ok (specElementwiseMax
          (specSumForRoles [(DefaultPodRole, some [(cpuK, 500)])]
            [DefaultPodRole, ExporterPodRole])
          (specSumForRoles [(DefaultPodRole, some [(cpuK, 500)])] [InitPodRole])) :=
  ⟨(totalResources_eq_max_runtime_init _ [] _).1 rfl,
   (totalResources_eq_max_runtime_init _ [] _).2 rfl⟩

/-- C5: on a present, decodable app node, the storage entry of the result
equals the storage quantity selected from the storage claim — the pod
template's storage value is overwritten, not summed. -/
theorem appNode_storage_overlay (obj : Obj) (fn : ResourceRequirements → RL)
    (fields : List String) (m : List (String × Value)) (node : AppNode)
    (rl : RL) (n : Int)
    (hm : nestedFieldNoCopy obj fields = .found (.obj m))
    (hdec : decodeAppNode m = .ok node)
    (hrun : AppNodeResources obj fn fields = .ok (rl, n)) :
    rlLookup rl storageK = some (rlStorage (fn node.Storage.Resources)) := by
  obtain ⟨entries, _, hrl, _⟩ := appNodeResources_ok hm hdec hrun
  rw [hrl]
  unfold rlLookup
  simp only [Option.getD_some]
  exact lookup_setKey_self _ _ _

/-- Witness for C5: pod template storage 5 units, storage claim 7 units;
the result's storage entry is 7000 milli-units, not 12000. -/
theorem appNode_storage_overlay_witness :
    rlLookup (some [(storageK, 7000)]) storageK = some 7000 :=
  appNode_storage_overlay
    [("spec", .obj [
      ("podTemplate", .obj [("spec", .obj [("resources",
        .obj [("limits", .obj [("storage", .num 5)])])])]),
      ("storage", .obj [("resources", .obj [("limits", .obj [("storage", .num 7)])])])])]
    ResourceLimits ["spec"]
    [("podTemplate", .obj [("spec", .obj [("resources",
        .obj [("limits", .obj [("storage", .num 5)])])])]),
     ("storage", .obj [("resources", .obj [("limits", .obj [("storage", .num 7)])])])]
    ⟨none, ⟨⟨⟨some [("storage", 5000)], none⟩⟩⟩, ⟨⟨some [("storage", 7000)], none⟩⟩⟩
    (some [(storageK, 7000)]) 1 rfl rfl rfl

/-- C6: when the app node sub-document is present and decodes but its
`replicas` field is absent or null, the returned replica count is 1. -/
theorem appNode_replicas_default_one (obj : Obj) (fn : ResourceRequirements → RL)
    (fields : List String) (m : List (String × Value)) (node : AppNode)
    (rl : RL) (n : Int)
    (hm : nestedFieldNoCopy obj fields = .found (.obj m))
    (hrep : m.lookup "replicas" = none ∨ m.lookup "replicas" = some .null)
    (hdec : decodeAppNode m = .ok node)
    (hrun : AppNodeResources obj fn fields = .ok (rl, n)) :
    AppNodeResources obj fn fields = .ok (rl, 1) := by
  obtain ⟨entries, _, _, hn⟩ := appNodeResources_ok hm hdec hrun
  have hreps : node.Replicas = none := by
    have hr := decodeAppNode_replicas hdec
    unfold decodeReplicasField at hr
    rcases hrep with h | h <;> rw [h] at hr <;>
      exact (Except.ok.inj hr).symm
  rw [hrun, hn, hreps]
  rfl

/-- Witness for C6: a present app node with no `replicas` key yields
replica count 1. -/
theorem appNode_replicas_default_one_witness :
    AppNodeResources
      [("spec", .obj [("podTemplate", .obj [("spec", .obj [("resources",
        .obj [("limits", .obj [("cpu", .num 1)])])])])])]
      ResourceLimits ["spec"]
      = .ok (some [(cpuK, 1000), (storageK, 0)], 1) :=
  appNode_replicas_default_one
    [("spec", .obj [("podTemplate", .obj [("spec", .obj [("resources",
      .obj [("limits", .obj [("cpu", .num 1)])])])])])]
    ResourceLimits ["spec"]
    [("podTemplate", .obj [("spec", .obj [("resources",
      .obj [("limits", .obj [("cpu", .num 1)])])])])]
    ⟨none, ⟨⟨⟨some [("cpu", 1000)], none⟩⟩⟩, ⟨⟨none, none⟩⟩⟩
    (some [(cpuK, 1000), (storageK, 0)]) 1 rfl (Or.inl rfl) rfl rfl

/-- C7: when the per-role replica extraction succeeds, the default
adapter's `Replicas` is the sum of the per-role counts over the configured
app roles only, an absent role contributing zero. -/
theorem replicas_sum_over_app_roles (c : ResourceCalculatorFuncs) (obj : Obj)
    (replicas : ReplicaList) (h : c.RoleReplicas obj = .ok replicas) :
    c.Replicas obj = .ok ((c.AppRoles.map (fun role => getRep replicas role)).sum) := by
  simp only [ResourceCalculatorFuncs.Replicas, h]
  rw [foldl_add_getRep, zero_add]

/-- Witness for C7: app roles sum only the default role's 2 replicas, the
exporter's 5 are excluded, and the absent init role contributes zero. -/
theorem replicas_sum_over_app_roles_witness :
    ResourceCalculatorFuncs.Replicas
      ⟨[DefaultPodRole, InitPodRole], [DefaultPodRole],
        fun _ => .ok [(DefaultPodRole, 2), (ExporterPodRole, 5)], none,
        fun _ => .ok [], fun _ => .ok []⟩ []
      = .ok 2 :=
  replicas_sum_over_app_roles _ [] [(DefaultPodRole, 2), (ExporterPodRole, 5)] rfl

/-- C9: when the requested field path is entirely absent,
`AppNodeResources` returns the nil resource list, replica count 0 and no
error. -/
theorem appNode_absent_path_nil_zero (obj : Obj) (fn : ResourceRequirements → RL)
    (fields : List String) (h : nestedFieldNoCopy obj fields = .absent) :
    AppNodeResources obj fn fields = .ok (none, 0) := by
  unfold AppNodeResources
  rw [h]

/-- Witness for C9: a document without the `spec` key. -/
theorem appNode_absent_path_nil_zero_witness :
    AppNodeResources [] ResourceLimits ["spec"] = .ok (none, 0) :=
  appNode_absent_path_nil_zero [] ResourceLimits ["spec"] rfl

/-- C10: the arithmetic operations read and write only the cpu, memory
and storage kinds — any other key of the inputs is absent from the results
of add, max and the role sum. -/
theorem ops_consider_only_closed_kinds (x y : RL) (rr : RoleResourceMap)
    (roles : List PodRole) {k : String}
    (h1 : k ≠ cpuK) (h2 : k ≠ memoryK) (h3 : k ≠ storageK) :
    rlLookup (AddResourceList x y) k = none ∧
    rlLookup (MaxResourceList x y) k = none ∧
    rlLookup (ResourceListForRoles rr roles) k = none :=
  ⟨rlLookup_mkCanon_other _ _ _ h1 h2 h3,
   rlLookup_mkCanon_other _ _ _ h1 h2 h3,
   rlLookup_mkCanon_other _ _ _ h1 h2 h3⟩

/-- Witness for C10 at the ephemeral-storage key. -/
theorem ops_consider_only_closed_kinds_witness :
    rlLookup (AddResourceList (some [("ephemeral-storage", 5)]) none)
      "ephemeral-storage" = none ∧
    rlLookup (MaxResourceList (some [("ephemeral-storage", 5)]) none)
      "ephemeral-storage" = none ∧
    rlLookup (ResourceListForRoles [(DefaultPodRole, some [("ephemeral-storage", 5)])]
      [DefaultPodRole]) "ephemeral-storage" = none :=
  ops_consider_only_closed_kinds (some [("ephemeral-storage", 5)]) none
    [(DefaultPodRole, some [("ephemeral-storage", 5)])] [DefaultPodRole]
    (by decide) (by decide) (by decide)

/-- C3 counterexample: `scalarMultiply` by 0 materializes an explicit zero
cpu entry, and a decoded app node with no storage claim carries an
explicit zero storage entry. -/
theorem zero_entries_materialized_cex :
    rlLookup (MulResourceList (some [(cpuK, 500)]) 0) cpuK = some 0 ∧
    AppNodeResources
      [("spec", .obj [("podTemplate", .obj [("spec", .obj [("resources",
        .obj [("limits", .obj [("cpu", .num 1)])])])])])]
      ResourceLimits ["spec"]
      = .ok (some [(cpuK, 1000), (storageK, 0)], 1) ∧
    rlLookup (some [(cpuK, 1000), (storageK, 0)]) storageK = some 0 :=
  ⟨rfl, rfl, rfl⟩

/-- C3 amended: `add` and `max` never produce a zero-valued entry;
`scalarMultiply` never produces one when the multiplier is nonzero; and
the app-node decoding always materializes an explicit storage entry —
which is therefore zero exactly when the selected storage-claim resources
have zero storage. -/
theorem zero_omission_amended :
    (∀ (x y : RL) (k : String), rlLookup (AddResourceList x y) k ≠ some 0) ∧
    (∀ (x y : RL) (k : String), rlLookup (MaxResourceList x y) k ≠ some 0) ∧
    (∀ (x : RL) (mult : Int) (k : String), mult ≠ 0 →
      rlLookup (MulResourceList x mult) k ≠ some 0) ∧
    (∀ (obj : Obj) (fn : ResourceRequirements → RL) (fields : List String)
      (entries : List (String × Int)) (n : Int),
      AppNodeResources obj fn fields = .ok (some entries, n) →
      ∃ v, List.lookup storageK entries = some v) := by
  refine ⟨?_, ?_, ?_, ?_⟩
  · intro x y k
    exact mkCanon_lookup_ne_some_zero _ _ _ k
  · intro x y k
    exact mkCanon_lookup_ne_some_zero _ _ _ k
  · intro x mult k hmult h
    unfold rlLookup at h
    exact mul_value_ne_zero hmult (lookup_mem _ _ _ h) rfl
  · intro obj fn fields entries n hrun
    unfold AppNodeResources at hrun
    cases hn : nestedFieldNoCopy obj fields with
    | absent =>
        simp only [hn, GoResult.ok.injEq, Prod.mk.injEq] at hrun
        exact absurd hrun.1 (by simp)
    | errN e =>
        simp only [hn] at hrun
        exact GoResult.noConfusion hrun
    | found v =>
        simp only [hn] at hrun
        cases v with
        | obj m =>
            cases hd : decodeAppNode m with
            | error e =>
                simp only [hd] at hrun
                exact GoResult.noConfusion hrun
            | ok node =>
                simp only [hd] at hrun
                cases hrr : fn node.PodTemplate.Spec.Resources with
                | none =>
                    simp only [hrr] at hrun
                    exact GoResult.noConfusion hrun
                | some e2 =>
                    simp only [hrr, GoResult.ok.injEq, Prod.mk.injEq,
                      Option.some.injEq] at hrun
                    rw [← hrun.1]
                    exact ⟨_, lookup_setKey_self _ _ _⟩
        | str s => exact GoResult.noConfusion hrun
        | num n2 => exact GoResult.noConfusion hrun
        | bool b => exact GoResult.noConfusion hrun
        | null => exact GoResult.noConfusion hrun
        | arr a => exact GoResult.noConfusion hrun

/-- Witness for C3 amended at concrete lists, multiplier 3 and a concrete
app-node result. -/
theorem zero_omission_amended_witness :
    rlLookup (AddResourceList (some [(cpuK, 500)]) none) cpuK ≠ some 0 ∧
    rlLookup (MaxResourceList (some [(cpuK, 500)]) none) cpuK ≠ some 0 ∧
    rlLookup (MulResourceList (some [(cpuK, 500)]) 3) cpuK ≠ some 0 ∧
    (∃ v, List.lookup storageK ([(cpuK, 1000), (storageK, 0)] : List (String × Int)) = some v) :=
  ⟨zero_omission_amended.1 (some [(cpuK, 500)]) none cpuK,
   zero_omission_amended.2.1 (some [(cpuK, 500)]) none cpuK,
   zero_omission_amended.2.2.1 (some [(cpuK, 500)]) 3 cpuK (by decide),
   zero_omission_amended.2.2.2
     [("spec", .obj [("podTemplate", .obj [("spec", .obj [("resources",
       .obj [("limits", .obj [("cpu", .num 1)])])])])])]
     ResourceLimits ["spec"] [(cpuK, 1000), (storageK, 0)] 1 rfl⟩

/-- C4 counterexample: `scalarMultiply({cpu: 500m}, 0)` is the singleton
map with an explicit zero cpu entry, not the empty resource list. -/
theorem mul_by_zero_not_empty_cex :
    MulResourceList (some [(cpuK, 500)]) 0 = some [(cpuK, 0)] ∧
    (some [(cpuK, 0)] : RL) ≠ some [] ∧ (some [(cpuK, 0)] : RL) ≠ none :=
  ⟨rfl, by decide, by decide⟩

/-- C4 amended: over the closed kind set, `scalarMultiply(x, 1)` is `x`
with zero entries omitted, and `scalarMultiply(x, 0)` keeps an explicit
zero entry for every kind nonzero in `x` (so it is the empty list only
when `x` has no nonzero entry). -/
theorem scalar_identity_amended (x : RL) (hx : closedKinds x) :
    (∀ k, rlLookup (MulResourceList x 1) k =
      if rlGet x k = 0 then none else some (rlGet x k)) ∧
    (∀ k, rlLookup (MulResourceList x 0) k =
      if rlGet x k = 0 then none else some 0) := by
  constructor
  · intro k
    by_cases h1 : k = cpuK
    · subst h1
      rw [rlLookup_mul_cpu]
      simp only [rlCpu, mul_one]
    · by_cases h2 : k = memoryK
      · subst h2
        rw [rlLookup_mul_memory]
        simp only [rlMemory, mul_one]
      · by_cases h3 : k = storageK
        · subst h3
          rw [rlLookup_mul_storage]
          simp only [rlStorage, mul_one]
        · rw [rlLookup_mul_other x 1 h1 h2 h3]
          have h0 : rlGet x k = 0 := by
            unfold rlGet
            rw [closedKinds_lookup_none hx h1 h2 h3]
            rfl
          rw [h0]
          simp
  · intro k
    by_cases h1 : k = cpuK
    · subst h1
      rw [rlLookup_mul_cpu]
      simp only [rlCpu, mul_zero]
    · by_cases h2 : k = memoryK
      · subst h2
        rw [rlLookup_mul_memory]
        simp only [rlMemory, mul_zero]
      · by_cases h3 : k = storageK
        · subst h3
          rw [rlLookup_mul_storage]
          simp only [rlStorage, mul_zero]
        · rw [rlLookup_mul_other x 0 h1 h2 h3]
          have h0 : rlGet x k = 0 := by
            unfold rlGet
            rw [closedKinds_lookup_none hx h1 h2 h3]
            rfl
          rw [h0]
          simp

/-- Witness for C4 amended at the singleton cpu list. -/
theorem scalar_identity_amended_witness :
    rlLookup (MulResourceList (some [(cpuK, 500)]) 1) cpuK = some 500 ∧
    rlLookup (MulResourceList (some [(cpuK, 500)]) 0) cpuK = some 0 := by
  have hx : closedKinds (some [(cpuK, 500)]) := by
    intro p hp
    simp only [Option.getD_some, List.mem_singleton] at hp
    subst hp
    exact Or.inl rfl
  constructor
  · exact ((scalar_identity_amended (some [(cpuK, 500)]) hx).1 cpuK).trans (by decide)
  · exact ((scalar_identity_amended (some [(cpuK, 500)]) hx).2 cpuK).trans (by decide)

/-- C8: on a present non-array value the aggregation returns the
shape-mismatch accessor error; on an array whose object-shaped entries all
decode, the non-object entries are silently skipped and the selected
resource lists of the rest are summed. -/
theorem aggregate_lenient_array_strict_shape (obj : Obj)
    (fn : ResourceRequirements → RL) (fields : List String) :
    (∀ (aggregate : RL → RL → RL) (v : Value),
      nestedFieldNoCopy obj fields = .found v → (∀ items, v ≠ .arr items) →
      AggregateContainerResources obj fn aggregate fields = .err (aggMismatchMsg fields)) ∧
    (∀ items : List Value,
      nestedFieldNoCopy obj fields = .found (.arr items) →
      (∀ m ∈ items.filterMap objShaped, ∃ c, decodeContainer m = .ok c) →
      AggregateContainerResources obj fn AddResourceList fields =
        .ok (List.foldl AddResourceList (some []) (decodedLists fn items))) := by
  constructor
  · intro aggregate v hv hne
    unfold AggregateContainerResources
    rw [hv]
    cases v with
    | arr items => exact absurd rfl (hne items)
    | str s => rfl
    | num n => rfl
    | bool b => rfl
    | null => rfl
    | obj m => rfl
  · intro items hv hall
    unfold AggregateContainerResources
    rw [hv]
    exact aggLoop_all_ok fn items (some []) hall

/-- Witness for C8: a mixed array whose non-object entry is skipped, and a
scalar value rejected with the accessor error. -/
theorem aggregate_lenient_array_strict_shape_witness :
    AggregateContainerResources
      [("containers", .arr [.num 3,
        .obj [("resources", .obj [("limits", .obj [("cpu", .num 2)])])]])]
      ResourceLimits AddResourceList ["containers"]
      = .ok (List.foldl AddResourceList (some [])
          (decodedLists ResourceLimits [.num 3,
            .obj [("resources", .obj [("limits", .obj [("cpu", .num 2)])])]])) ∧
    AggregateContainerResources [("containers", .str "oops")]
      ResourceLimits AddResourceList ["containers"]
      = .err (aggMismatchMsg ["containers"]) := by
  constructor
  · refine (aggregate_lenient_array_strict_shape _ ResourceLimits ["containers"]).2
      _ rfl ?_
    intro m hm
    simp [objShaped] at hm
    subst hm
    exact ⟨_, rfl⟩
  · exact (aggregate_lenient_array_strict_shape _ ResourceLimits ["containers"]).1
      AddResourceList (.str "oops") rfl (fun items h => Value.noConfusion h)
